import Mathlib

/-!
Shallow embedding of the FastAPI + JSON-file store application
(`app/core/database.py`, `app/api/v1/auth.py`, `app/api/v1/orders.py`,
`app/api/v1/users.py`, `app/models/*.py`).

Conventions of the embedding:
* JSON numbers are modelled as `Int` (stocks and quantities are Python
  ints; prices are Python floats, but no verified property depends on
  non-integral values, so they are embedded at the same type).
* Timestamps are opaque strings supplied by the caller (the code calls
  `datetime.utcnow().isoformat()`; the value itself is never inspected).
* Generated ids (`uuid.uuid4()`) are opaque strings supplied by the caller.
* The password hash (`get_password_hash`) is an opaque function parameter.
* A Python `raise SomeException(...)` is an `Except.error`; handlers return
  the final persisted collections together with the result, so that what the
  store holds after an error is part of every statement.
-/

namespace Lab01

/-- Modelled from the spec: the error taxonomy (`app/core/exceptions.py` is
referenced by every API module — `NotFoundException`, `UnauthorizedException`,
`ForbiddenException`, `BadRequestException`, `ConflictException` — but the
module itself is not part of the source tree; the spec's §7 taxonomy names the
same five kinds).  `internal` stands for an unhandled Python runtime error
(e.g. a `TypeError` from subscripting `None`). -/
inductive ApiError where
  | notFound (msg : String)
  | unauthorized (msg : String)
  | forbidden (msg : String)
  | badRequest (msg : String)
  | conflict (msg : String)
  | internal (msg : String)
  deriving DecidableEq

/-- A stored user record (`users.json`), fields as written by
`register` in `app/api/v1/auth.py`. -/
structure User where
  id : String
  username : String
  email : String
  full_name : Option String
  hashed_password : String
  role : String
  is_active : Bool
  created_at : String
  updated_at : Option String
  deriving DecidableEq

/-- A stored product record (`products.json`), fields as in
`app/models/product.py` (`ProductInDB`). -/
structure Product where
  id : String
  name : String
  description : Option String
  price : Int
  stock : Int
  category : String
  created_at : String
  updated_at : Option String
  deriving DecidableEq

/-- One order item, `OrderItem` in `app/models/order.py`. -/
structure OrderItem where
  product_id : String
  product_name : String
  quantity : Int
  price : Int
  deriving DecidableEq

/-- A stored order record (`orders.json`), fields as written by
`create_order` in `app/api/v1/orders.py`. -/
structure Order where
  id : String
  user_id : String
  items : List OrderItem
  status : String
  total_amount : Int
  created_at : String
  updated_at : Option String
  deriving DecidableEq

/-- `JSONDatabase.get_by_id` (`app/core/database.py`) on the typed view of a
collection: first record whose `id` field equals `id`, or `none`. -/
def getById {α : Type} (getId : α → String) (data : List α) (id : String) : Option α :=
  data.find? (fun r => getId r == id)

/-- The loop body of `JSONDatabase.update` (`app/core/database.py`) on the
typed view of a collection: mutate the first record satisfying `pred` with
`f`, leave everything else unchanged; if no record matches, the collection is
returned unchanged (the Python code writes nothing and returns `None`). -/
def updateFirst {α : Type} (pred : α → Bool) (f : α → α) : List α → List α
  | [] => []
  | r :: rest => if pred r then f r :: rest else r :: updateFirst pred f rest

/-- The call `db_products.update(pid, {"stock": new_stock, "updated_at": ...})`
made by `create_order` and `cancel_order` in `app/api/v1/orders.py`. -/
def dbProductsUpdate (ps : List Product) (pid : String) (new_stock : Int)
    (now : String) : List Product :=
  updateFirst (fun p => p.id == pid)
    (fun p => { p with stock := new_stock, updated_at := some now }) ps

/-! ## `POST /orders` — `create_order` (`app/api/v1/orders.py`) -/

/-- Request body `OrderCreate` (`app/models/order.py`): items only, no
`user_id` field. -/
structure OrderCreate where
  items : List OrderItem
  deriving DecidableEq

/-- A raw JSON request body for order creation, before pydantic parsing.  It
may carry a `user_id` member; `OrderCreate` does not declare that field, so
pydantic drops it. -/
structure RawOrderPayload where
  user_id : Option String
  items : List OrderItem
  deriving DecidableEq

/-- Pydantic parsing of a raw order-creation body into `OrderCreate`
(`app/models/order.py`): only `items` is kept. -/
def parseOrderCreate (raw : RawOrderPayload) : OrderCreate :=
  { items := raw.items }

/-- The validation loop of `create_order`: for each item read the product,
raise `BadRequestException` if absent or under-stocked, otherwise accumulate
`total_amount += quantity * price`. -/
def validateItems (ps : List Product) : List OrderItem → Int → Except ApiError Int
  | [], total => .ok total
  | it :: rest, total =>
    match getById Product.id ps it.product_id with
    | none => .error (.badRequest ("Product " ++ it.product_id ++ " not found"))
    | some product =>
      if product.stock < it.quantity then
        .error (.badRequest ("Insufficient stock for product " ++ product.name
          ++ ". Available: " ++ toString product.stock))
      else
        validateItems ps rest (total + it.quantity * it.price)

/-- The stock-decrement loop of `create_order`: re-read each product and write
`stock - quantity`.  The Python loop subscripts the re-read product without a
`None` check; the `false` flag marks the `TypeError` that subscripting `None`
would raise, aborting the loop with the updates so far already persisted. -/
def decrementItems : List Product → String → List OrderItem → List Product × Bool
  | ps, _, [] => (ps, true)
  | ps, now, it :: rest =>
    match getById Product.id ps it.product_id with
    | none => (ps, false)
    | some product =>
      decrementItems (dbProductsUpdate ps it.product_id (product.stock - it.quantity) now)
        now rest

/-- The `order_data` dict built by `create_order`: a fresh id, `user_id`
forced to the authenticated principal's id, status `pending`, and the
computed total. -/
def mkOrderData (current_user : User) (order : OrderCreate) (newId now : String)
    (total_amount : Int) : Order :=
  { id := newId
    user_id := current_user.id
    items := order.items
    status := "pending"
    total_amount := total_amount
    created_at := now
    updated_at := none }

/-- `create_order` (`app/api/v1/orders.py`): validate every item, build the
order record with `user_id` taken from `current_user`, decrement the stocks,
then append the order to `orders.json`.  Returns the final
`(products, orders)` collections together with the request's outcome. -/
def create_order (ps : List Product) (os : List Order) (current_user : User)
    (order : OrderCreate) (newId now : String) :
    (List Product × List Order) × Except ApiError Order :=
  match validateItems ps order.items 0 with
  | .error e => ((ps, os), .error e)
  | .ok total_amount =>
    let order_data : Order := mkOrderData current_user order newId now total_amount
    match decrementItems ps now order.items with
    | (ps', true) => ((ps', os ++ [order_data]), .ok order_data)
    | (ps', false) => ((ps', os), .error (.internal "TypeError"))

/-! ## `DELETE /orders/{id}` — `cancel_order` (`app/api/v1/orders.py`) -/

/-- The stock-restore loop of `cancel_order`: re-read each product of the
order and write `stock + quantity`; a missing product is skipped silently
(the loop is guarded by `if product:`). -/
def restoreItems : List Product → String → List OrderItem → List Product
  | ps, _, [] => ps
  | ps, now, it :: rest =>
    match getById Product.id ps it.product_id with
    | none => restoreItems ps now rest
    | some product =>
      restoreItems (dbProductsUpdate ps it.product_id (product.stock + it.quantity) now)
        now rest

/-- `cancel_order` (`app/api/v1/orders.py`): resolve the order
(`NotFoundException` if absent); a non-admin must own it
(`ForbiddenException`) and it must be `pending` (`BadRequestException`);
then restore every item's stock and set the order's status to `cancelled`. -/
def cancel_order (ps : List Product) (os : List Order) (current_user : User)
    (order_id now : String) :
    (List Product × List Order) × Except ApiError Unit :=
  match getById Order.id os order_id with
  | none => ((ps, os), .error (.notFound ("Order with id " ++ order_id ++ " not found")))
  | some order =>
    let proceed : (List Product × List Order) × Except ApiError Unit :=
      ((restoreItems ps now order.items,
        updateFirst (fun o => o.id == order_id)
          (fun o => { o with status := "cancelled", updated_at := some now }) os),
       .ok ())
    if current_user.role = "admin" then proceed
    else if order.user_id ≠ current_user.id then
      ((ps, os), .error (.forbidden "Not enough permissions to cancel this order"))
    else if order.status ≠ "pending" then
      ((ps, os), .error (.badRequest "Can only cancel pending orders"))
    else proceed

/-! ## `POST /auth/register` — `register` (`app/api/v1/auth.py`) -/

/-- Request body `UserCreate` (`app/models/user.py`). -/
structure UserCreate where
  username : String
  email : String
  full_name : Option String
  password : String
  deriving DecidableEq

/-- A raw JSON registration body before pydantic parsing.  It may carry
`role` or `is_active` members; `UserCreate` declares neither field, so
pydantic drops them. -/
structure RawRegisterPayload where
  username : String
  email : String
  full_name : Option String
  password : String
  role : Option String
  is_active : Option Bool
  deriving DecidableEq

/-- Pydantic parsing of a raw registration body into `UserCreate`
(`app/models/user.py`): the undeclared `role` and `is_active` members are
dropped. -/
def parseUserCreate (raw : RawRegisterPayload) : UserCreate :=
  { username := raw.username
    email := raw.email
    full_name := raw.full_name
    password := raw.password }

/-- `JSONDatabase.get_by_field(field, value)` on the typed user collection,
for the two fields `register` consults. -/
def getUserByUsername (users : List User) (username : String) : Option User :=
  users.find? (fun u => u.username == username)

/-- `JSONDatabase.get_by_field("email", value)` on the typed user
collection. -/
def getUserByEmail (users : List User) (email : String) : Option User :=
  users.find? (fun u => u.email == email)

/-- The `user_data` dict built by `register`: a fresh id, the hashed
password, the hard-wired `role = "user"` and `is_active = True`. -/
def mkUserData (user : UserCreate) (newId now : String)
    (hash : String → String) : User :=
  { id := newId
    username := user.username
    email := user.email
    full_name := user.full_name
    hashed_password := hash user.password
    role := "user"
    is_active := true
    created_at := now
    updated_at := none }

/-- `register` (`app/api/v1/auth.py`): reject a duplicate username, then a
duplicate email, with `ConflictException`; otherwise append the new record
with `role = "user"` and `is_active = True`. -/
def register (users : List User) (user : UserCreate) (newId now : String)
    (hash : String → String) : List User × Except ApiError User :=
  match getUserByUsername users user.username with
  | some _ => (users, .error (.conflict ("Username " ++ user.username ++ " already exists")))
  | none =>
    match getUserByEmail users user.email with
    | some _ => (users, .error (.conflict ("Email " ++ user.email ++ " already registered")))
    | none =>
      let user_data : User := mkUserData user newId now hash
      (users ++ [user_data], .ok user_data)

/-! ## `PUT /users/{id}` — `update_user` (`app/api/v1/users.py`) -/

/-- Request body `UserUpdate` (`app/models/user.py`); `none` stands for an
omitted field (`exclude_unset=True`). -/
structure UserUpdate where
  email : Option String
  full_name : Option String
  password : Option String
  deriving DecidableEq

/-- The merge performed by `db.update(user_id, update_data)` in
`update_user`: each supplied field overwrites the stored one, a supplied
password is hashed into `hashed_password`, and `updated_at` is set. -/
def applyUserUpdate (u : User) (upd : UserUpdate) (hash : String → String)
    (now : String) : User :=
  { u with
    email := match upd.email with | some e => e | none => u.email
    full_name := match upd.full_name with | some f => some f | none => u.full_name
    hashed_password := match upd.password with | some pw => hash pw | none => u.hashed_password
    updated_at := some now }

/-- `update_user` (`app/api/v1/users.py`): `NotFoundException` if the id is
absent, `ForbiddenException` if the caller is neither admin nor the user
itself; otherwise merge the supplied fields into the stored record.  No
uniqueness check of any kind is performed. -/
def update_user (users : List User) (user_id : String) (user_update : UserUpdate)
    (current_user : User) (hash : String → String) (now : String) :
    List User × Except ApiError User :=
  match getById User.id users user_id with
  | none => (users, .error (.notFound ("User with id " ++ user_id ++ " not found")))
  | some user =>
    if current_user.role ≠ "admin" ∧ current_user.id ≠ user_id then
      (users, .error (.forbidden "Not enough permissions to update this user"))
    else
      (updateFirst (fun u => u.id == user_id)
        (fun u => applyUserUpdate u user_update hash now) users,
       .ok (applyUserUpdate user user_update hash now))

/-! ## The generic record store — `JSONDatabase` (`app/core/database.py`)

The store is generic over dictionaries, so for claims about the store itself
records are embedded as field-to-value association lists with unique keys
(Python dicts). -/

/-- A JSON scalar value stored in a record field. -/
inductive JVal where
  | str (s : String)
  | int (n : Int)
  | bool (b : Bool)
  | null
  deriving DecidableEq

/-- A record: a Python dict from field names to values. -/
abbrev JRecord := List (String × JVal)

/-- Python `record.get(key)`: the value at `key`, or `None` when absent. -/
def getField : JRecord → String → Option JVal
  | [], _ => none
  | (k, v) :: rest, key => if k = key then some v else getField rest key

/-- Python `record[key] = v`: overwrite the binding at `key`, or append it. -/
def setField : JRecord → String → JVal → JRecord
  | [], key, v => [(key, v)]
  | (k, w) :: rest, key, v =>
    if k = key then (key, v) :: rest else (k, w) :: setField rest key v

/-- Python `record.update(updates)`: set every binding of `updates` in order,
so a later binding for the same key wins. -/
def mergeFields (r : JRecord) (updates : JRecord) : JRecord :=
  updates.foldl (fun acc kv => setField acc kv.1 kv.2) r

/-- The failure kinds the spec's Document Store interface names for `update`. -/
inductive DbError where
  | notFound
  | storage
  deriving DecidableEq

/-- The record-matching test of `JSONDatabase.update`:
`item.get('id') == id`. -/
def matchesId (r : JRecord) (id : String) : Bool :=
  getField r "id" == some (.str id)

namespace JSONDatabase

/-- `JSONDatabase.update` (`app/core/database.py`): scan the collection for
the first record whose `id` field equals `id`; merge `updates` into it,
persist, and return the merged record.  When no record matches, the Python
function falls off the loop and returns `None` — it raises nothing, so the
embedding never produces an `Except.error`. -/
def update : List JRecord → String → JRecord → Except DbError (List JRecord × Option JRecord)
  | [], _, _ => .ok ([], none)
  | r :: rest, id, updates =>
    if matchesId r id then
      let r' := mergeFields r updates
      .ok (r' :: rest, some r')
    else
      match update rest id updates with
      | .ok (rest', res) => .ok (r :: rest', res)
      | .error e => .error e

end JSONDatabase

/-! ## Cooperative interleaving of concurrent `create_order` requests

`JSONDatabase` awaits (`asyncio.sleep(0)`) inside every read, and
`create_order` performs its stock check, its re-read and its write as
separate store calls, so the asyncio event loop may interleave other
requests between them.  The model below specialises `create_order` to `N`
concurrent requests, each for one unit of one and the same product: each
coroutine is a little state machine whose atomic steps are exactly the
spans between awaits. -/

/-- The control point of one in-flight `create_order` coroutine (single item,
`quantity = 1`).  `gotStock r` records the stock value the decrement loop
read; the subsequent write stores `r - 1` regardless of the then-current
stock, exactly as `new_stock = product["stock"] - item.quantity` does. -/
inductive CoPhase where
  | start
  | validated
  | gotStock (r : Int)
  | wroteStock
  | done
  | failed
  deriving DecidableEq

/-- Shared state: the product's persisted stock, the number of committed
order records, and each coroutine's control point. -/
structure RaceState where
  stock : Int
  orders : Nat
  phases : List CoPhase
  deriving DecidableEq

/-- One atomic step of one coroutine, between two awaits of `create_order`:
validate (read stock, compare with the requested quantity 1), re-read the
stock for the decrement, write the decremented value, append the order. -/
def stepCo (stock : Int) : CoPhase → Int × Nat × CoPhase
  | .start => if stock < 1 then (stock, 0, .failed) else (stock, 0, .validated)
  | .validated => (stock, 0, .gotStock stock)
  | .gotStock r => (r - 1, 0, .wroteStock)
  | .wroteStock => (stock, 1, .done)
  | .done => (stock, 0, .done)
  | .failed => (stock, 0, .failed)

/-- Run a schedule: at each tick the event loop resumes the named coroutine
for one atomic step.  An out-of-range index is a no-op tick. -/
def runSchedule : RaceState → List Nat → RaceState
  | s, [] => s
  | s, i :: rest =>
    match s.phases.get? i with
    | none => runSchedule s rest
    | some ph =>
      let (stock', d, ph') := stepCo s.stock ph
      runSchedule { stock := stock', orders := s.orders + d, phases := s.phases.set i ph' } rest

/-- The number of coroutines that finished successfully. -/
def countDone (s : RaceState) : Nat :=
  (s.phases.filter (fun ph => ph == .done)).length

/-- The number of coroutines that failed with `BadRequestException`. -/
def countFailed (s : RaceState) : Nat :=
  (s.phases.filter (fun ph => ph == .failed)).length

/-- A schedule where the event loop lets all ten coroutines pass validation
before any of them writes: ten validations, ten re-reads, ten writes, ten
order commits. -/
def raceSchedule : List Nat :=
  (List.range 10) ++ (List.range 10) ++ (List.range 10) ++ (List.range 10)

/-- The initial state of the §8 race scenario: stock 5, no orders, ten
requests about to run. -/
def raceStart : RaceState :=
  { stock := 5, orders := 0, phases := List.replicate 10 .start }

/-! ## Derived quantities and concrete fixtures used in the statements -/

/-- The sum `Σ quantity × price` over a list of items, the value
`create_order` accumulates into `total_amount`. -/
def sumItems : List OrderItem → Int
  | [] => 0
  | it :: rest => it.quantity * it.price + sumItems rest

/-- Total quantity the items of an order request reference a given product
with. -/
def qtyFor (pid : String) : List OrderItem → Int
  | [] => 0
  | it :: rest => (if it.product_id = pid then it.quantity else 0) + qtyFor pid rest

/-- The value of the last binding of `key` in an update dict, the binding
that `mergeFields` lets win. -/
def lookupLast : JRecord → String → Option JVal
  | [], _ => none
  | (k, v) :: rest, key =>
    match lookupLast rest key with
    | some w => some w
    | none => if k = key then some v else none

/-- A `UserUpdate` body that sets only the email field. -/
def emailOnlyUpdate (e : String) : UserUpdate :=
  { email := some e, full_name := none, password := none }

/-- Pairwise distinctness of usernames and of emails across the user
collection — the §3 uniqueness invariant. -/
def UsersDistinct (users : List User) : Prop :=
  users.Pairwise (fun a b => a.username ≠ b.username ∧ a.email ≠ b.email)

/-- A concrete ordinary user (fixture for witnesses). -/
def alice : User :=
  { id := "u1", username := "alice", email := "alice@example.com",
    full_name := none, hashed_password := "h1", role := "user",
    is_active := true, created_at := "t0", updated_at := none }

/-- A second concrete ordinary user (fixture for witnesses). -/
def bob : User :=
  { id := "u2", username := "bob", email := "bob@example.com",
    full_name := none, hashed_password := "h2", role := "user",
    is_active := true, created_at := "t0", updated_at := none }

/-- A concrete admin user (fixture for witnesses). -/
def rootAdmin : User :=
  { id := "u9", username := "root", email := "root@example.com",
    full_name := none, hashed_password := "h9", role := "admin",
    is_active := true, created_at := "t0", updated_at := none }

/-- A concrete product with stock 10 (fixture for witnesses). -/
def widget : Product :=
  { id := "p1", name := "widget", description := none, price := 100,
    stock := 10, category := "misc", created_at := "t0", updated_at := none }

/-- A concrete order item requesting 2 units of `widget`. -/
def widgetItem : OrderItem :=
  { product_id := "p1", product_name := "widget", quantity := 2, price := 100 }

/-- A concrete pending order owned by `alice` (fixture for witnesses). -/
def aliceOrder : Order :=
  { id := "o1", user_id := "u1", items := [widgetItem], status := "pending",
    total_amount := 200, created_at := "t1", updated_at := none }

/-- A concrete already-cancelled order owned by `alice` (fixture for
witnesses). -/
def aliceCancelledOrder : Order :=
  { id := "o2", user_id := "u1", items := [widgetItem], status := "cancelled",
    total_amount := 200, created_at := "t1", updated_at := some "t2" }

/-! # General lemmas about the embedded store operations -/

theorem find?_updateFirst_self {α : Type} (pred : α → Bool) (f : α → α)
    (hpf : ∀ a, pred (f a) = pred a) (l : List α) :
    (updateFirst pred f l).find? pred = (l.find? pred).map f := by
  induction l with
  | nil => rfl
  | cons r rest ih =>
    cases h : pred r with
    | true => simp [updateFirst, h, List.find?_cons, hpf]
    | false => simp [updateFirst, h, List.find?_cons, hpf, ih]

theorem find?_updateFirst_other {α : Type} (pred q : α → Bool) (f : α → α)
    (hqf : ∀ a, q (f a) = q a) (hdisj : ∀ a, pred a = true → q a = false)
    (l : List α) :
    (updateFirst pred f l).find? q = l.find? q := by
  induction l with
  | nil => rfl
  | cons r rest ih =>
    cases h : pred r with
    | true =>
      have hq : q r = false := hdisj r h
      have hqf' : q (f r) = false := by rw [hqf]; exact hq
      simp [updateFirst, h, List.find?_cons, hq, hqf']
    | false => simp [updateFirst, h, List.find?_cons, ih]

theorem mem_updateFirst_of_ne {α : Type} (pred : α → Bool) (f : α → α)
    {x : α} (hx : pred x = false) {l : List α} (hm : x ∈ l) :
    x ∈ updateFirst pred f l := by
  induction l with
  | nil => cases hm
  | cons r rest ih =>
    rcases List.mem_cons.mp hm with rfl | hmr
    · simp [updateFirst, hx]
    · cases h : pred r with
      | true => simp [updateFirst, h, List.mem_cons, hmr]
      | false => simp [updateFirst, h, List.mem_cons]; right; exact ih hmr

theorem mem_updateFirst_of_find? {α : Type} (pred : α → Bool) (f : α → α)
    {l : List α} {x : α} (h : l.find? pred = some x) :
    f x ∈ updateFirst pred f l := by
  induction l with
  | nil => cases h
  | cons r rest ih =>
    cases hp : pred r with
    | true =>
      rw [List.find?_cons_of_pos _ hp] at h
      cases h
      simp [updateFirst, hp]
    | false =>
      rw [List.find?_cons_of_neg _ (by simp [hp])] at h
      simp [updateFirst, hp, List.mem_cons]
      right
      exact ih h

theorem getById_dbProductsUpdate_self (ps : List Product) (pid : String)
    (v : Int) (now : String) :
    getById Product.id (dbProductsUpdate ps pid v now) pid
      = (getById Product.id ps pid).map
          (fun p => { p with stock := v, updated_at := some now }) := by
  unfold getById dbProductsUpdate
  apply find?_updateFirst_self
  intro a
  rfl

theorem getById_dbProductsUpdate_other (ps : List Product) (pid pid' : String)
    (v : Int) (now : String) (hne : pid' ≠ pid) :
    getById Product.id (dbProductsUpdate ps pid' v now) pid
      = getById Product.id ps pid := by
  unfold getById dbProductsUpdate
  apply find?_updateFirst_other
  · intro a
    rfl
  intro a ha
  have h1 : a.id = pid' := by simpa using ha
  simp [h1, hne]

theorem isSome_getById_dbProductsUpdate (ps : List Product) (pid pid' : String)
    (v : Int) (now : String) (h : (getById Product.id ps pid).isSome) :
    (getById Product.id (dbProductsUpdate ps pid' v now) pid).isSome := by
  by_cases he : pid' = pid
  · subst he
    rw [getById_dbProductsUpdate_self]
    simpa using h
  · rw [getById_dbProductsUpdate_other ps pid pid' v now he]
    exact h

theorem validateItems_error_badRequest (ps : List Product) :
    ∀ (its : List OrderItem) (t : Int) (e : ApiError),
      validateItems ps its t = .error e → ∃ m, e = .badRequest m := by
  intro its
  induction its with
  | nil => intro t e h; simp [validateItems] at h
  | cons it rest ih =>
    intro t e h
    cases hp : getById Product.id ps it.product_id with
    | none =>
      simp [validateItems, hp] at h
      exact ⟨_, h.symm⟩
    | some p =>
      by_cases hs : p.stock < it.quantity
      · simp [validateItems, hp, hs] at h
        exact ⟨_, h.symm⟩
      · simp [validateItems, hp, hs] at h
        exact ih _ _ h

theorem validateItems_ok_present (ps : List Product) :
    ∀ (its : List OrderItem) (t s : Int),
      validateItems ps its t = .ok s →
      ∀ it ∈ its, (getById Product.id ps it.product_id).isSome := by
  intro its
  induction its with
  | nil => intro t s _ it hit; cases hit
  | cons it rest ih =>
    intro t s h x hx
    cases hp : getById Product.id ps it.product_id with
    | none => simp [validateItems, hp] at h
    | some p =>
      by_cases hs : p.stock < it.quantity
      · simp [validateItems, hp, hs] at h
      · rcases List.mem_cons.mp hx with rfl | hxr
        · simp [hp]
        · exact ih _ _ (by simpa [validateItems, hp, hs] using h) x hxr

theorem validateItems_ok_total (ps : List Product) :
    ∀ (its : List OrderItem) (t s : Int),
      validateItems ps its t = .ok s → s = t + sumItems its := by
  intro its
  induction its with
  | nil =>
    intro t s h
    simp [validateItems] at h
    simp [sumItems, h.symm]
  | cons it rest ih =>
    intro t s h
    cases hp : getById Product.id ps it.product_id with
    | none => simp [validateItems, hp] at h
    | some p =>
      by_cases hs : p.stock < it.quantity
      · simp [validateItems, hp, hs] at h
      · have h' := ih _ _ (by simpa [validateItems, hp, hs] using h)
        rw [h']
        simp [sumItems]
        ring

theorem decrementItems_completes (now : String) :
    ∀ (its : List OrderItem) (ps : List Product),
      (∀ it ∈ its, (getById Product.id ps it.product_id).isSome) →
      (decrementItems ps now its).2 = true := by
  intro its
  induction its with
  | nil => intro ps _; rfl
  | cons it rest ih =>
    intro ps h
    have hhead := h it (List.mem_cons_self it rest)
    rcases Option.isSome_iff_exists.mp hhead with ⟨p, hp⟩
    have : decrementItems ps now (it :: rest)
        = decrementItems (dbProductsUpdate ps it.product_id (p.stock - it.quantity) now)
            now rest := by
      simp [decrementItems, hp]
    rw [this]
    apply ih
    intro x hx
    exact isSome_getById_dbProductsUpdate _ _ _ _ _ (h x (List.mem_cons_of_mem it hx))

theorem restoreItems_stock (now pid : String) :
    ∀ (its : List OrderItem) (ps : List Product) (p : Product),
      getById Product.id ps pid = some p →
      ∃ p', getById Product.id (restoreItems ps now its) pid = some p'
        ∧ p'.stock = p.stock + qtyFor pid its := by
  intro its
  induction its with
  | nil =>
    intro ps p hp
    exact ⟨p, hp, by simp [qtyFor]⟩
  | cons it rest ih =>
    intro ps p hp
    cases hq : getById Product.id ps it.product_id with
    | none =>
      have hne : it.product_id ≠ pid := by
        intro he
        rw [he, hp] at hq
        cases hq
      obtain ⟨p', h1, h2⟩ := ih ps p hp
      refine ⟨p', ?_, ?_⟩
      · simpa [restoreItems, hq] using h1
      · simp [qtyFor, hne, h2]
    | some q =>
      by_cases he : it.product_id = pid
      · subst he
        rw [hp] at hq
        injection hq with hq'
        subst hq'
        have hps' : getById Product.id
            (dbProductsUpdate ps it.product_id (p.stock + it.quantity) now) it.product_id
            = some { p with stock := p.stock + it.quantity, updated_at := some now } := by
          rw [getById_dbProductsUpdate_self, hp]
          rfl
        obtain ⟨p', h1, h2⟩ := ih _ _ hps'
        refine ⟨p', ?_, ?_⟩
        · simpa [restoreItems, hp] using h1
        · rw [h2]
          simp [qtyFor]
          ring
      · have hps' : getById Product.id
            (dbProductsUpdate ps it.product_id (q.stock + it.quantity) now) pid
            = some p := by
          rw [getById_dbProductsUpdate_other _ _ _ _ _ he]
          exact hp
        obtain ⟨p', h1, h2⟩ := ih _ _ hps'
        refine ⟨p', ?_, ?_⟩
        · simpa [restoreItems, hq] using h1
        · simp [qtyFor, he, h2]

theorem getById_cancelMark_self (os : List Order) (oid now : String) :
    getById Order.id
      (updateFirst (fun o => o.id == oid)
        (fun o => { o with status := "cancelled", updated_at := some now }) os) oid
      = (getById Order.id os oid).map
          (fun o => { o with status := "cancelled", updated_at := some now }) := by
  unfold getById
  apply find?_updateFirst_self
  intro a
  rfl

theorem getField_setField (k key : String) (v : JVal) :
    ∀ r : JRecord, getField (setField r k v) key
      = if k = key then some v else getField r key := by
  intro r
  induction r with
  | nil =>
    by_cases h : k = key
    · simp [setField, getField, h]
    · simp [setField, getField, h]
  | cons kv rest ih =>
    obtain ⟨k', w⟩ := kv
    by_cases h1 : k' = k
    · subst h1
      by_cases h2 : k' = key
      · simp [setField, getField, h2]
      · simp [setField, getField, h2]
    · by_cases h2 : k' = key
      · have hk : ¬ (k = key) := fun hh => h1 (h2.trans hh.symm)
        have hk' : ¬ (key = k) := fun hh => hk hh.symm
        simp [setField, getField, h1, h2, hk, hk']
      · simp [setField, getField, h1, h2, ih]

theorem getField_mergeFields (key : String) :
    ∀ (upds r : JRecord), getField (mergeFields r upds) key
      = match lookupLast upds key with
        | some v => some v
        | none => getField r key := by
  intro upds
  induction upds with
  | nil => intro r; simp [mergeFields, lookupLast]
  | cons kv rest ih =>
    intro r
    obtain ⟨k, v⟩ := kv
    have hm : mergeFields r ((k, v) :: rest) = mergeFields (setField r k v) rest := rfl
    rw [hm, ih]
    cases hl : lookupLast rest key with
    | some w => simp [lookupLast, hl]
    | none =>
      rw [getField_setField]
      by_cases h : k = key
      · simp [lookupLast, hl, h]
      · simp [lookupLast, hl, h]

/-! # Claim theorems -/

/-- C1: the store performs no serialization, so the asyncio event loop may
interleave ten concurrent one-unit `create_order` requests between their
stock check, their re-read and their write.  Under the schedule that lets all
ten requests pass validation before any write (`raceSchedule`), all ten
orders commit, none fails with `BadRequestException`, and the final stock is
4 — not "exactly 5 succeed, 5 fail, final stock 0" as the claim states. -/
theorem race_ten_creates_defeat_claim :
    runSchedule raceStart raceSchedule
      = { stock := 4, orders := 10, phases := List.replicate 10 .done }
    ∧ countDone (runSchedule raceStart raceSchedule) = 10
    ∧ countFailed (runSchedule raceStart raceSchedule) = 0
    ∧ ¬ (countDone (runSchedule raceStart raceSchedule) = 5
          ∧ (runSchedule raceStart raceSchedule).stock = 0) := by
  decide

/-- C7 (counterexample): `JSONDatabase.update` applied to an id that is not
in the collection returns normally with `None` and an unchanged collection;
it does not fail with `NotFoundError` as the claim states. -/
theorem jsonUpdate_absent_counterexample :
    JSONDatabase.update [[("id", JVal.str "a"), ("stock", JVal.int 3)]] "b"
        [("stock", JVal.int 7)]
      = .ok ([[("id", JVal.str "a"), ("stock", JVal.int 3)]], none)
    ∧ JSONDatabase.update [[("id", JVal.str "a"), ("stock", JVal.int 3)]] "b"
        [("stock", JVal.int 7)]
      ≠ .error DbError.notFound :=
  ⟨rfl, fun h => nomatch h⟩

/-- C7 (amended): for an absent id `JSONDatabase.update` raises nothing,
writes nothing and returns `None`; for a present id it merges the given
fields into the first matching record (last-write-wins per field, later
bindings of the update dict overwriting earlier ones and the stored value)
and persists the result in place. -/
theorem jsonUpdate_behavior (data : List JRecord) (tid : String) (upds : JRecord) :
    (data.find? (fun r => matchesId r tid) = none →
        JSONDatabase.update data tid upds = .ok (data, none))
  ∧ (∀ r0, data.find? (fun r => matchesId r tid) = some r0 →
      ∃ l₁ l₂, data = l₁ ++ r0 :: l₂
        ∧ (∀ x ∈ l₁, matchesId x tid = false)
        ∧ JSONDatabase.update data tid upds
            = .ok (l₁ ++ mergeFields r0 upds :: l₂, some (mergeFields r0 upds)))
  ∧ (∀ (r0 : JRecord) (key : String),
      getField (mergeFields r0 upds) key
        = match lookupLast upds key with
          | some v => some v
          | none => getField r0 key) := by
  refine ⟨?_, ?_, ?_⟩
  · induction data with
    | nil => intro _; rfl
    | cons r rest ih =>
      intro h
      cases hm : matchesId r tid with
      | true => simp [List.find?_cons, hm] at h
      | false =>
        simp only [List.find?_cons, hm, Bool.false_eq_true, if_false] at h
        simp [JSONDatabase.update, hm, ih h]
  · induction data with
    | nil => intro r0 h; cases h
    | cons r rest ih =>
      intro r0 h
      cases hm : matchesId r tid with
      | true =>
        simp only [List.find?_cons, hm, if_true] at h
        cases h
        refine ⟨[], rest, rfl, by simp, ?_⟩
        simp [JSONDatabase.update, hm]
      | false =>
        simp only [List.find?_cons, hm, Bool.false_eq_true, if_false] at h
        obtain ⟨l₁, l₂, hdata, hl₁, hupd⟩ := ih r0 h
        refine ⟨r :: l₁, l₂, by rw [hdata]; rfl, ?_, ?_⟩
        · intro x hx
          rcases List.mem_cons.mp hx with rfl | hx'
          · exact hm
          · exact hl₁ x hx'
        · simp [JSONDatabase.update, hm, hupd]
  · intro r0 key
    exact getField_mergeFields key upds r0

/-- C7 (witness): updating the empty collection returns `None` and leaves it
empty. -/
theorem jsonUpdate_behavior_witness :
    JSONDatabase.update [] "k" [("a", JVal.int 1)] = .ok ([], none) :=
  (jsonUpdate_behavior [] "k" [("a", JVal.int 1)]).1 rfl

/-- C2: whenever `create_order` fails, the failure is a `BadRequestException`
raised by the validation loop, before any mutation: the product and order
collections are returned exactly as they were, no stock changed and no order
inserted. -/
theorem create_order_error_no_mutation (ps : List Product) (os : List Order)
    (u : User) (order : OrderCreate) (newId now : String) (e : ApiError)
    (h : (create_order ps os u order newId now).2 = .error e) :
    (create_order ps os u order newId now).1 = (ps, os) ∧ ∃ m, e = .badRequest m := by
  cases hv : validateItems ps order.items 0 with
  | error e' =>
    have heq : create_order ps os u order newId now = ((ps, os), .error e') := by
      simp [create_order, hv]
    rw [heq] at h
    obtain ⟨m, hm⟩ := validateItems_error_badRequest ps order.items 0 e' hv
    cases h
    exact ⟨by rw [heq], m, hm⟩
  | ok t =>
    have hpres := validateItems_ok_present ps order.items 0 t hv
    have hflag := decrementItems_completes now order.items ps hpres
    rcases hd : decrementItems ps now order.items with ⟨ps', fl⟩
    rw [hd] at hflag
    simp only at hflag
    subst hflag
    simp [create_order, hv, hd] at h

/-- C2 (witness): creating against an empty product collection fails with
`BadRequestException` and leaves both collections empty. -/
theorem create_order_error_no_mutation_witness :
    (create_order [] [] alice { items := [widgetItem] } "o1" "t1").1 = ([], [])
    ∧ ∃ m, ApiError.badRequest "Product p1 not found" = ApiError.badRequest m :=
  create_order_error_no_mutation [] [] alice { items := [widgetItem] } "o1" "t1"
    (ApiError.badRequest "Product p1 not found") rfl

/-- C3: a successful `create_order` stores an order whose `user_id` is the
authenticated principal's id — the `user_id` member of the raw request body
is dropped by pydantic parsing and never read — whose `total_amount` is
Σ quantity×price over the items, whose status is `pending`, and the order
collection gains exactly that record. -/
theorem create_order_owner_total_status (ps : List Product) (os : List Order)
    (u : User) (raw : RawOrderPayload) (newId now : String) (ord : Order)
    (h : (create_order ps os u (parseOrderCreate raw) newId now).2 = .ok ord) :
    ord.user_id = u.id
    ∧ ord.status = "pending"
    ∧ ord.total_amount = sumItems raw.items
    ∧ (create_order ps os u (parseOrderCreate raw) newId now).1.2 = os ++ [ord] := by
  cases hv : validateItems ps (parseOrderCreate raw).items 0 with
  | error e => simp [create_order, hv] at h
  | ok t =>
    have hpres := validateItems_ok_present ps (parseOrderCreate raw).items 0 t hv
    have hflag := decrementItems_completes now (parseOrderCreate raw).items ps hpres
    rcases hd : decrementItems ps now (parseOrderCreate raw).items with ⟨ps', fl⟩
    rw [hd] at hflag
    simp only at hflag
    subst hflag
    have htot := validateItems_ok_total ps (parseOrderCreate raw).items 0 t hv
    have heq : create_order ps os u (parseOrderCreate raw) newId now
        = ((ps', os ++ [mkOrderData u (parseOrderCreate raw) newId now t]),
           .ok (mkOrderData u (parseOrderCreate raw) newId now t)) := by
      simp [create_order, hv, hd]
    rw [heq] at h
    cases h
    refine ⟨rfl, rfl, ?_, by rw [heq]⟩
    show t = sumItems raw.items
    rw [htot]
    simp [parseOrderCreate]

/-- C3 (witness): a concrete creation by `alice` against a payload that tries
to set `user_id` to `mallory`. -/
theorem create_order_owner_total_status_witness :
    (mkOrderData alice { items := [widgetItem] } "o1" "t1" 200).user_id = alice.id
    ∧ (mkOrderData alice { items := [widgetItem] } "o1" "t1" 200).status = "pending"
    ∧ (mkOrderData alice { items := [widgetItem] } "o1" "t1" 200).total_amount
        = sumItems [widgetItem]
    ∧ (create_order [widget] [] alice
        (parseOrderCreate { user_id := some "mallory", items := [widgetItem] }) "o1" "t1").1.2
        = [] ++ [mkOrderData alice { items := [widgetItem] } "o1" "t1" 200] :=
  create_order_owner_total_status [widget] [] alice
    { user_id := some "mallory", items := [widgetItem] } "o1" "t1" _ rfl

/-- C4: with the order present, a non-admin caller's `cancel_order` succeeds
exactly when the caller owns the order and its status is `pending` — a
non-owner gets `ForbiddenException` and an owner of a non-pending order gets
`BadRequestException` — while an admin's cancellation succeeds regardless of
ownership and status. -/
theorem cancel_order_permissions (ps : List Product) (os : List Order)
    (u : User) (oid now : String) (ord : Order)
    (hord : getById Order.id os oid = some ord) :
    (u.role ≠ "admin" →
      ((cancel_order ps os u oid now).2 = .ok ()
          ↔ (ord.user_id = u.id ∧ ord.status = "pending"))
      ∧ (ord.user_id ≠ u.id →
          ∃ m, (cancel_order ps os u oid now).2 = .error (.forbidden m))
      ∧ (ord.user_id = u.id → ord.status ≠ "pending" →
          ∃ m, (cancel_order ps os u oid now).2 = .error (.badRequest m)))
    ∧ (u.role = "admin" → (cancel_order ps os u oid now).2 = .ok ()) := by
  by_cases hadmin : u.role = "admin"
  · refine ⟨fun hna => absurd hadmin hna, fun _ => ?_⟩
    simp [cancel_order, hord, hadmin]
  · refine ⟨fun _ => ?_, fun ha => absurd ha hadmin⟩
    by_cases howner : ord.user_id = u.id
    · by_cases hpend : ord.status = "pending"
      · have hres : (cancel_order ps os u oid now).2 = .ok () := by
          simp [cancel_order, hord, hadmin, howner, hpend]
        refine ⟨?_, ?_, ?_⟩
        · rw [hres]
          simp [howner, hpend]
        · intro hno
          exact absurd howner hno
        · intro _ hnp
          exact absurd hpend hnp
      · have hres : (cancel_order ps os u oid now).2
            = .error (.badRequest "Can only cancel pending orders") := by
          simp [cancel_order, hord, hadmin, howner, hpend]
        refine ⟨?_, ?_, ?_⟩
        · rw [hres]
          simp [hpend]
        · intro hno
          exact absurd howner hno
        · intro _ _
          exact ⟨_, hres⟩
    · have hres : (cancel_order ps os u oid now).2
          = .error (.forbidden "Not enough permissions to cancel this order") := by
        simp [cancel_order, hord, hadmin, howner]
      refine ⟨?_, ?_, ?_⟩
      · rw [hres]
        simp [howner]
      · intro _
        exact ⟨_, hres⟩
      · intro ho
        exact absurd ho howner

/-- C4 (witness): `alice` (a non-admin) cancels her own pending order. -/
theorem cancel_order_permissions_witness :
    (cancel_order [widget] [aliceOrder] alice "o1" "t2").2 = .ok () :=
  (((cancel_order_permissions [widget] [aliceOrder] alice "o1" "t2" aliceOrder rfl).1
      (by decide)).1).mpr ⟨rfl, rfl⟩

/-- C6: creating an order for `quantity ≤ stock` units of a product and then
cancelling that order (here by its creator) returns the product's stock to
exactly its original value. -/
theorem create_then_cancel_restores_stock (ps : List Product) (os : List Order)
    (u : User) (it : OrderItem) (p : Product) (newId now now2 : String)
    (hp : getById Product.id ps it.product_id = some p)
    (hq : it.quantity ≤ p.stock)
    (hfresh : getById Order.id os newId = none) :
    ∃ ord, (create_order ps os u { items := [it] } newId now).2 = .ok ord
      ∧ (cancel_order (create_order ps os u { items := [it] } newId now).1.1
           (create_order ps os u { items := [it] } newId now).1.2 u newId now2).2 = .ok ()
      ∧ ∃ p', getById Product.id
            (cancel_order (create_order ps os u { items := [it] } newId now).1.1
              (create_order ps os u { items := [it] } newId now).1.2 u newId now2).1.1
            it.product_id = some p'
          ∧ p'.stock = p.stock := by
  have hv : validateItems ps [it] 0 = .ok (0 + it.quantity * it.price) := by
    simp [validateItems, hp, not_lt.mpr hq]
  have hd : decrementItems ps now [it]
      = (dbProductsUpdate ps it.product_id (p.stock - it.quantity) now, true) := by
    simp [decrementItems, hp]
  have heq : create_order ps os u { items := [it] } newId now
      = ((dbProductsUpdate ps it.product_id (p.stock - it.quantity) now,
          os ++ [mkOrderData u { items := [it] } newId now (0 + it.quantity * it.price)]),
         .ok (mkOrderData u { items := [it] } newId now (0 + it.quantity * it.price))) := by
    simp [create_order, hv, hd]
  set od := mkOrderData u { items := [it] } newId now (0 + it.quantity * it.price) with hod
  set ps1 := dbProductsUpdate ps it.product_id (p.stock - it.quantity) now with hps1
  have hfind : getById Order.id (os ++ [od]) newId = some od := by
    unfold getById at hfresh ⊢
    rw [List.find?_append, hfresh]
    simp [hod, mkOrderData]
  have hp1 : getById Product.id ps1 it.product_id
      = some { p with stock := p.stock - it.quantity, updated_at := some now } := by
    rw [hps1, getById_dbProductsUpdate_self, hp]
    rfl
  have hcancel : cancel_order ps1 (os ++ [od]) u newId now2
      = ((restoreItems ps1 now2 od.items,
          updateFirst (fun o => o.id == newId)
            (fun o => { o with status := "cancelled", updated_at := some now2 }) (os ++ [od])),
         .ok ()) := by
    have h1 : od.user_id = u.id := rfl
    have h2 : od.status = "pending" := rfl
    by_cases hadmin : u.role = "admin"
    · simp [cancel_order, hfind, hadmin]
    · simp [cancel_order, hfind, hadmin, h1, h2]
  obtain ⟨p', hfind', hstock⟩ :=
    restoreItems_stock now2 it.product_id od.items ps1 _ hp1
  refine ⟨od, ?_, ?_, ⟨p', ?_, ?_⟩⟩
  · rw [heq]
  · rw [heq]
    simp only
    rw [hcancel]
  · rw [heq]
    simp only
    rw [hcancel]
    simp only
    exact hfind'
  · rw [hstock]
    have hqty : qtyFor it.product_id od.items = it.quantity := by
      simp [hod, mkOrderData, qtyFor]
    rw [hqty]
    simp

/-- C6 (witness): stock 10, order 2 units, cancel: stock is exactly 10
again. -/
theorem create_then_cancel_restores_stock_witness :
    ∃ ord, (create_order [widget] [] alice { items := [widgetItem] } "o1" "t1").2 = .ok ord
      ∧ (cancel_order (create_order [widget] [] alice { items := [widgetItem] } "o1" "t1").1.1
           (create_order [widget] [] alice { items := [widgetItem] } "o1" "t1").1.2
           alice "o1" "t2").2 = .ok ()
      ∧ ∃ p', getById Product.id
            (cancel_order (create_order [widget] [] alice { items := [widgetItem] } "o1" "t1").1.1
              (create_order [widget] [] alice { items := [widgetItem] } "o1" "t1").1.2
              alice "o1" "t2").1.1
            widgetItem.product_id = some p'
          ∧ p'.stock = widget.stock :=
  create_then_cancel_restores_stock [widget] [] alice widgetItem widget "o1" "t1" "t2"
    rfl (by decide) rfl

/-- C5: a registration whose username or email equals that of a stored user
fails with `ConflictException` and leaves the user collection unchanged, and
`register` preserves pairwise distinctness of usernames and emails across
the collection. -/
theorem register_uniqueness (users : List User) (u : UserCreate)
    (newId now : String) (hash : String → String) :
    ((∃ w ∈ users, w.username = u.username ∨ w.email = u.email) →
        (register users u newId now hash).1 = users
        ∧ ∃ m, (register users u newId now hash).2 = .error (.conflict m))
    ∧ (UsersDistinct users → UsersDistinct (register users u newId now hash).1) := by
  constructor
  · rintro ⟨w, hw, hcase⟩
    cases hu : getUserByUsername users u.username with
    | some w' =>
      exact ⟨by simp [register, hu],
        "Username " ++ u.username ++ " already exists", by simp [register, hu]⟩
    | none =>
      have hnoname : ∀ x ∈ users, x.username ≠ u.username := by
        intro x hx
        have hx' := List.find?_eq_none.mp hu x hx
        simpa using hx'
      have hemail : w.email = u.email := by
        rcases hcase with hname | hem
        · exact absurd hname (hnoname w hw)
        · exact hem
      have hsome : (getUserByEmail users u.email).isSome := by
        unfold getUserByEmail
        rw [List.find?_isSome]
        exact ⟨w, hw, by simp [hemail]⟩
      rcases Option.isSome_iff_exists.mp hsome with ⟨w', hw'⟩
      exact ⟨by simp [register, hu, hw'],
        "Email " ++ u.email ++ " already registered", by simp [register, hu, hw']⟩
  · intro hdist
    cases hu : getUserByUsername users u.username with
    | some w' => simpa [register, hu] using hdist
    | none =>
      cases he : getUserByEmail users u.email with
      | some w' => simpa [register, hu, he] using hdist
      | none =>
        have hres : (register users u newId now hash).1
            = users ++ [mkUserData u newId now hash] := by
          simp [register, hu, he]
        rw [hres]
        unfold UsersDistinct at hdist ⊢
        rw [List.pairwise_append]
        refine ⟨hdist, by simp, ?_⟩
        intro a ha b hb
        rw [List.mem_singleton] at hb
        subst hb
        constructor
        · have ha' := List.find?_eq_none.mp hu a ha
          simpa [mkUserData] using ha'
        · have ha' := List.find?_eq_none.mp he a ha
          simpa [mkUserData] using ha'

/-- C5 (witness): re-registering the username `alice` fails with
`ConflictException` and leaves the collection unchanged. -/
theorem register_uniqueness_witness :
    (register [alice] { username := "alice", email := "new@example.com",
                        full_name := none, password := "pw1234" } "u3" "t3" (fun s => s)).1
      = [alice]
    ∧ ∃ m, (register [alice] { username := "alice", email := "new@example.com",
                               full_name := none, password := "pw1234" } "u3" "t3"
             (fun s => s)).2 = .error (.conflict m) :=
  (register_uniqueness [alice] { username := "alice", email := "new@example.com",
                                 full_name := none, password := "pw1234" } "u3" "t3"
    (fun s => s)).1 ⟨alice, by simp, Or.inl rfl⟩

/-- C8: whatever the raw registration payload contains — including `role` or
`is_active` members, which `UserCreate` does not declare and pydantic
drops — a user record created by `register` has role `"user"` and
`is_active = true`; every record of the resulting collection is an old
record or such a new one. -/
theorem register_role_is_active (users : List User) (raw : RawRegisterPayload)
    (newId now : String) (hash : String → String) :
    (∀ nu, (register users (parseUserCreate raw) newId now hash).2 = .ok nu →
        nu.role = "user" ∧ nu.is_active = true)
    ∧ ∀ nu ∈ (register users (parseUserCreate raw) newId now hash).1,
        nu ∈ users ∨ (nu.role = "user" ∧ nu.is_active = true) := by
  cases hu : getUserByUsername users (parseUserCreate raw).username with
  | some w =>
    refine ⟨fun nu h => ?_, fun nu h => ?_⟩
    · simp [register, hu] at h
    · exact Or.inl (by simpa [register, hu] using h)
  | none =>
    cases he : getUserByEmail users (parseUserCreate raw).email with
    | some w =>
      refine ⟨fun nu h => ?_, fun nu h => ?_⟩
      · simp [register, hu, he] at h
      · exact Or.inl (by simpa [register, hu, he] using h)
    | none =>
      refine ⟨fun nu h => ?_, fun nu h => ?_⟩
      · have hok : (register users (parseUserCreate raw) newId now hash).2
            = .ok (mkUserData (parseUserCreate raw) newId now hash) := by
          simp [register, hu, he]
        rw [hok] at h
        cases h
        exact ⟨rfl, rfl⟩
      · have hres : (register users (parseUserCreate raw) newId now hash).1
            = users ++ [mkUserData (parseUserCreate raw) newId now hash] := by
          simp [register, hu, he]
        rw [hres] at h
        rcases List.mem_append.mp h with hold | hnew
        · exact Or.inl hold
        · rw [List.mem_singleton] at hnew
          subst hnew
          exact Or.inr ⟨rfl, rfl⟩

/-- C8 (witness): a payload that tries to set `role = "admin"` and
`is_active = false` still produces a `"user"`-role, active record. -/
theorem register_role_is_active_witness :
    (mkUserData (parseUserCreate { username := "carol", email := "carol@example.com",
                                   full_name := none, password := "pw1234",
                                   role := some "admin", is_active := some false })
      "u4" "t4" (fun s => s)).role = "user"
    ∧ (mkUserData (parseUserCreate { username := "carol", email := "carol@example.com",
                                     full_name := none, password := "pw1234",
                                     role := some "admin", is_active := some false })
        "u4" "t4" (fun s => s)).is_active = true :=
  (register_role_is_active [] { username := "carol", email := "carol@example.com",
                                full_name := none, password := "pw1234",
                                role := some "admin", is_active := some false }
    "u4" "t4" (fun s => s)).1 _ rfl

/-- C9: an admin-issued `cancel_order` on an order whose status is already
`cancelled` succeeds and adds each item's quantity to the referenced
product's stock again, and a second admin cancellation adds it yet again:
repeated cancellation is not idempotent. -/
theorem admin_cancel_not_idempotent (ps : List Product) (os : List Order)
    (u : User) (oid now now2 pid : String) (ord : Order) (p : Product)
    (hadmin : u.role = "admin")
    (hord : getById Order.id os oid = some ord)
    (_hstatus : ord.status = "cancelled")
    (hp : getById Product.id ps pid = some p) :
    (cancel_order ps os u oid now).2 = .ok ()
    ∧ (∃ p₁, getById Product.id (cancel_order ps os u oid now).1.1 pid = some p₁
        ∧ p₁.stock = p.stock + qtyFor pid ord.items)
    ∧ (cancel_order (cancel_order ps os u oid now).1.1
        (cancel_order ps os u oid now).1.2 u oid now2).2 = .ok ()
    ∧ ∃ p₂, getById Product.id
          (cancel_order (cancel_order ps os u oid now).1.1
            (cancel_order ps os u oid now).1.2 u oid now2).1.1 pid = some p₂
        ∧ p₂.stock = p.stock + qtyFor pid ord.items + qtyFor pid ord.items := by
  have hc1 : cancel_order ps os u oid now
      = ((restoreItems ps now ord.items,
          updateFirst (fun o => o.id == oid)
            (fun o => { o with status := "cancelled", updated_at := some now }) os),
         .ok ()) := by
    simp [cancel_order, hord, hadmin]
  have hfind2 : getById Order.id
      (updateFirst (fun o => o.id == oid)
        (fun o => { o with status := "cancelled", updated_at := some now }) os) oid
      = some { ord with status := "cancelled", updated_at := some now } := by
    rw [getById_cancelMark_self, hord]
    rfl
  have hc2 : cancel_order (restoreItems ps now ord.items)
      (updateFirst (fun o => o.id == oid)
        (fun o => { o with status := "cancelled", updated_at := some now }) os) u oid now2
      = ((restoreItems (restoreItems ps now ord.items) now2 ord.items,
          updateFirst (fun o => o.id == oid)
            (fun o => { o with status := "cancelled", updated_at := some now2 })
            (updateFirst (fun o => o.id == oid)
              (fun o => { o with status := "cancelled", updated_at := some now }) os)),
         .ok ()) := by
    simp [cancel_order, hfind2, hadmin]
  obtain ⟨p₁, hp₁, hs₁⟩ := restoreItems_stock now pid ord.items ps p hp
  obtain ⟨p₂, hp₂, hs₂⟩ := restoreItems_stock now2 pid ord.items _ p₁ hp₁
  simp only [hc1, hc2]
  exact ⟨trivial, ⟨p₁, hp₁, hs₁⟩, trivial, ⟨p₂, hp₂, by rw [hs₂, hs₁]⟩⟩

/-- C9 (witness): the admin cancels `alice`'s already-cancelled order for 2
units of `widget` twice; stock grows by 2 each time. -/
theorem admin_cancel_not_idempotent_witness :
    (cancel_order [widget] [aliceCancelledOrder] rootAdmin "o2" "t3").2 = .ok ()
    ∧ (∃ p₁, getById Product.id
          (cancel_order [widget] [aliceCancelledOrder] rootAdmin "o2" "t3").1.1 "p1" = some p₁
        ∧ p₁.stock = widget.stock + qtyFor "p1" aliceCancelledOrder.items)
    ∧ (cancel_order (cancel_order [widget] [aliceCancelledOrder] rootAdmin "o2" "t3").1.1
        (cancel_order [widget] [aliceCancelledOrder] rootAdmin "o2" "t3").1.2
        rootAdmin "o2" "t4").2 = .ok ()
    ∧ ∃ p₂, getById Product.id
          (cancel_order (cancel_order [widget] [aliceCancelledOrder] rootAdmin "o2" "t3").1.1
            (cancel_order [widget] [aliceCancelledOrder] rootAdmin "o2" "t3").1.2
            rootAdmin "o2" "t4").1.1 "p1" = some p₂
        ∧ p₂.stock = widget.stock + qtyFor "p1" aliceCancelledOrder.items
            + qtyFor "p1" aliceCancelledOrder.items :=
  admin_cancel_not_idempotent [widget] [aliceCancelledOrder] rootAdmin "o2" "t3" "t4" "p1"
    aliceCancelledOrder widget rfl rfl rfl rfl

/-- C10: `update_user` performs no uniqueness check: a permitted caller can
set an existing user's email to another stored user's email, the call
succeeds (no `ConflictException` — no error at all), and afterwards the
collection holds two records with different ids and the same email. -/
theorem update_user_duplicate_email (users : List User) (uid : String)
    (u1 u2 cu : User) (hash : String → String) (now : String)
    (hfind : getById User.id users uid = some u1)
    (hmem : u2 ∈ users) (hne : u2.id ≠ uid)
    (hperm : cu.role = "admin" ∨ cu.id = uid) :
    (update_user users uid (emailOnlyUpdate u2.email) cu hash now).2
        = .ok (applyUserUpdate u1 (emailOnlyUpdate u2.email) hash now)
    ∧ applyUserUpdate u1 (emailOnlyUpdate u2.email) hash now
        ∈ (update_user users uid (emailOnlyUpdate u2.email) cu hash now).1
    ∧ u2 ∈ (update_user users uid (emailOnlyUpdate u2.email) cu hash now).1
    ∧ (applyUserUpdate u1 (emailOnlyUpdate u2.email) hash now).id = uid
    ∧ (applyUserUpdate u1 (emailOnlyUpdate u2.email) hash now).email = u2.email := by
  have hguard : ¬ (cu.role ≠ "admin" ∧ cu.id ≠ uid) := by
    rcases hperm with h | h
    · intro hc
      exact hc.1 h
    · intro hc
      exact hc.2 h
  have hres : update_user users uid (emailOnlyUpdate u2.email) cu hash now
      = (updateFirst (fun u => u.id == uid)
          (fun u => applyUserUpdate u (emailOnlyUpdate u2.email) hash now) users,
         .ok (applyUserUpdate u1 (emailOnlyUpdate u2.email) hash now)) := by
    simp [update_user, hfind, hguard]
  have hid : u1.id = uid := by
    have h1 := List.find?_some hfind
    simpa using h1
  rw [hres]
  refine ⟨rfl, ?_, ?_, ?_, rfl⟩
  · exact mem_updateFirst_of_find? _ _ hfind
  · exact mem_updateFirst_of_ne _ _ (by simp [hne]) hmem
  · exact hid

/-- C10 (witness): `alice` sets her own email to `bob`'s; the call succeeds
and `alice`'s updated record shares `bob`'s email while keeping her id. -/
theorem update_user_duplicate_email_witness :
    (update_user [alice, bob] "u1" (emailOnlyUpdate bob.email) alice (fun s => s) "t5").2
        = .ok (applyUserUpdate alice (emailOnlyUpdate bob.email) (fun s => s) "t5")
    ∧ applyUserUpdate alice (emailOnlyUpdate bob.email) (fun s => s) "t5"
        ∈ (update_user [alice, bob] "u1" (emailOnlyUpdate bob.email) alice (fun s => s) "t5").1
    ∧ bob ∈ (update_user [alice, bob] "u1" (emailOnlyUpdate bob.email) alice (fun s => s) "t5").1
    ∧ (applyUserUpdate alice (emailOnlyUpdate bob.email) (fun s => s) "t5").id = "u1"
    ∧ (applyUserUpdate alice (emailOnlyUpdate bob.email) (fun s => s) "t5").email = bob.email :=
  update_user_duplicate_email [alice, bob] "u1" alice bob alice (fun s => s) "t5"
    rfl (by simp) (by decide) (Or.inr rfl)

end Lab01
